/-
Verification of the holoviz-insights data-preparation scripts.

Shallow embedding of:
  * scripts/get_releases.py   (classify_release)
  * scripts/update_issues.py  (_handle_rate_limit, fetch_additional_issue_data,
                               add_maintainer_responses, merge_and_save)
  * scripts/convert_json.py   (convert_json)

Network I/O is modelled by response oracles (functions from request index to a
response value); side effects (log lines, sleeps, file writes/deletes) are
modelled as explicit event traces.  Machine integers do not overflow in the
modelled code paths, so Nat/Int are used directly.
-/
import Mathlib

/-! ## Release classifier (scripts/get_releases.py, lines 12-22)

`classify_release` applies `re.match(r"v?(\d+)\.(\d+)\.(\d+)", tag)`:
an optional leading `v`, then three runs of decimal digits separated by dots,
anchored at the start of the string only (`re.match` does not anchor the end).
Digits are modelled as ASCII digits, as in the tags the script consumes. -/

/-- Greedy run of decimal digits at the head of a character list, mirroring
one `(\d+)` group: the digits consumed and the remaining characters. -/
def spanDigits (cs : List Char) : List Char × List Char :=
  (cs.takeWhile Char.isDigit, cs.dropWhile Char.isDigit)

/-- Numeric value of a digit run, as Python `int` reads it. -/
def digitsVal (cs : List Char) : Nat :=
  cs.foldl (fun acc c => acc * 10 + (c.toNat - '0'.toNat)) 0

/-- Embedding of `re.match(r"v?(\d+)\.(\d+)\.(\d+)", tag)` followed by
`map(int, match.groups())`: `none` when the pattern does not match a prefix of
the tag, otherwise the three parsed components.  Trailing characters after the
third group are ignored, exactly as `re.match` ignores them. -/
def semverMatch (tag : String) : Option (Nat × Nat × Nat) :=
  let cs := tag.data
  let cs := match cs with
    | 'v' :: rest => rest
    | other => other
  let (d1, r1) := spanDigits cs
  if d1 = [] then none else
  match r1 with
  | '.' :: r1 =>
    let (d2, r2) := spanDigits r1
    if d2 = [] then none else
    match r2 with
    | '.' :: r2 =>
      let (d3, _) := spanDigits r2
      if d3 = [] then none else
      some (digitsVal d1, digitsVal d2, digitsVal d3)
    | _ => none
  | _ => none

/-- Embedding of `classify_release` (get_releases.py lines 12-22). -/
def classify_release (tag : String) : String :=
  match semverMatch tag with
  | none => "unknown"
  | some (major, minor, patch) =>
    if major > 0 ∧ minor = 0 ∧ patch = 0 then "major"
    else if patch = 0 then "minor"
    else "patch"

/-- C1: classify_release yields "unknown" exactly off-pattern, and on a parsed
tag the category is "major" iff major>0 and minor=patch=0, "minor" iff patch=0
and not the major condition, "patch" iff patch≠0; with the spec's examples. -/
theorem classify_release_spec :
    (∀ tag, semverMatch tag = none → classify_release tag = "unknown") ∧
    (∀ tag M m p, semverMatch tag = some (M, m, p) →
      (classify_release tag = "major" ↔ M > 0 ∧ m = 0 ∧ p = 0) ∧
      (classify_release tag = "minor" ↔ p = 0 ∧ ¬(M > 0 ∧ m = 0 ∧ p = 0)) ∧
      (classify_release tag = "patch" ↔ p ≠ 0)) ∧
    classify_release "v0.5.0" = "minor" ∧
    classify_release "v1.0.0" = "major" ∧
    classify_release "v1.0.1" = "patch" ∧
    classify_release "v1.1.0" = "minor" ∧
    classify_release "v2.0.0" = "major" := by
  refine ⟨?_, ?_, by decide, by decide, by decide, by decide, by decide⟩
  · intro tag h
    simp [classify_release, h]
  · intro tag M m p h
    have hcr : classify_release tag =
        if M > 0 ∧ m = 0 ∧ p = 0 then "major" else if p = 0 then "minor" else "patch" := by
      unfold classify_release
      rw [h]
    rw [hcr]
    by_cases h1 : M > 0 ∧ m = 0 ∧ p = 0
    · rw [if_pos h1]
      exact ⟨⟨fun _ => h1, fun _ => rfl⟩,
        ⟨fun hc => absurd hc (by decide), fun hx => absurd h1 hx.2⟩,
        ⟨fun hc => absurd hc (by decide), fun hp => absurd h1.2.2 hp⟩⟩
    · rw [if_neg h1]
      by_cases h2 : p = 0
      · rw [if_pos h2]
        exact ⟨⟨fun hc => absurd hc (by decide), fun hx => absurd hx h1⟩,
          ⟨fun _ => ⟨h2, h1⟩, fun _ => rfl⟩,
          ⟨fun hc => absurd hc (by decide), fun hp => absurd h2 hp⟩⟩
      · rw [if_neg h2]
        exact ⟨⟨fun hc => absurd hc (by decide), fun hx => absurd hx.2.2 h2⟩,
          ⟨fun hc => absurd hc (by decide), fun hx => absurd hx.1 h2⟩,
          ⟨fun _ => h2, fun _ => rfl⟩⟩

/-- Witness for classify_release_spec: instantiation at concrete tags. -/
theorem classify_release_spec_witness :
    classify_release "release-1" = "unknown" ∧ classify_release "v1.2.3" = "patch" := by
  refine ⟨classify_release_spec.1 "release-1" (by decide), ?_⟩
  exact ((classify_release_spec.2.1 "v1.2.3" 1 2 3 (by decide)).2.2).mpr (by decide)

/-! ## Rate-limited fetcher (scripts/update_issues.py, lines 12-169)

Network responses are supplied by oracles: for the paginated issue-listing
request, `presp page attempt` is the response to the request for `page` made on
retry-loop iteration `attempt`; for the per-issue timeline request,
`tresp issueNumber attempt` likewise.  A Python `requests` exception is the
`exn` response.  Wall-clock time is a frozen parameter `now` (`time.time()`).
Side effects are recorded as an event trace. -/

/-- Module-level constant `MAX_RETRIES = 3` (update_issues.py line 12). -/
def MAX_RETRIES : Nat := 3

/-- Module-level constant `RETRY_DELAY = 2` seconds (line 13). -/
def RETRY_DELAY : Nat := 2

/-- Module-level constant `RATE_LIMIT_WAIT = 60` seconds (line 14). -/
def RATE_LIMIT_WAIT : Nat := 60

/-- One issue object of the GitHub list-issues JSON body, restricted to the
fields lines 102-163 read: `number`, `html_url`, presence of the
`pull_request` key, `state`, `milestone` title, assignee logins. -/
structure IssueJson where
  number : Nat
  html_url : String
  pull_request : Bool
  state : String
  milestone : Option String
  assignees : List String
deriving DecidableEq, Repr

/-- One timeline event, restricted to the fields lines 122-127 read:
the `event` string, and whether `event.source.issue` has a `pull_request`
key. -/
structure TimelineEvent where
  event : String
  sourceIssueHasPR : Bool
deriving DecidableEq, Repr

/-- Response to one paginated issue-listing request: HTTP 200 with a parsed
body, HTTP 403 with the optional integer `X-RateLimit-Reset` header, any
other status code, or a `requests` exception. -/
inductive PResp where
  | ok (body : List IssueJson)
  | rateLimited (reset : Option Int)
  | errStatus (code : Nat)
  | exn
deriving DecidableEq, Repr

/-- Response to one timeline request (same shape, with a timeline body). -/
inductive TResp where
  | ok (events : List TimelineEvent)
  | rateLimited (reset : Option Int)
  | errStatus (code : Nat)
  | exn
deriving DecidableEq, Repr

/-- Observable side effects of the fetcher, in program order. -/
inductive Ev where
  | pageReq
  | tlReq
  | waitRL (t : Int)
  | sleepRetry (t : Nat)
  | logWarn
  | logErr
  | throttle
deriving DecidableEq, Repr

/-- Wait duration computed by `_handle_rate_limit` (lines 17-35):
`max(int(reset_time) - int(time.time()), 0) + 1` when the
`X-RateLimit-Reset` header is present, else `RATE_LIMIT_WAIT`. -/
def rlWait (reset : Option Int) (now : Int) : Int :=
  match reset with
  | some r => max (r - now) 0 + 1
  | none => (RATE_LIMIT_WAIT : Int)

/-- Outcome of the pagination retry loop (lines 73-96): `success` is the
`break` on status 200, `aborted` is the `return add_cols` after the last
attempt, and `fellThrough` is the loop running out of iterations without a
`break` or `return` (only consecutive 403s do this — control then reaches
line 98 with the 403 response still bound to `result`). -/
inductive PageOutcome where
  | success (body : List IssueJson)
  | aborted
  | fellThrough
deriving DecidableEq, Repr

/-- Embedding of the pagination retry loop body (lines 73-96): `i` is the
current value of `attempt`, `fuel` the remaining loop iterations
(`fuel = MAX_RETRIES - i` at every reachable call). -/
def pageLoopAux (resp : Nat → PResp) (now : Int) : Nat → Nat → List Ev × PageOutcome
  | _, 0 => ([], .fellThrough)
  | i, fuel + 1 =>
    match resp i with
    | .ok body => ([.pageReq], .success body)
    | .rateLimited h =>
      let rest := pageLoopAux resp now (i + 1) fuel
      (.pageReq :: .waitRL (rlWait h now) :: rest.1, rest.2)
    | .errStatus _ =>
      if i < MAX_RETRIES - 1 then
        let rest := pageLoopAux resp now (i + 1) fuel
        (.pageReq :: .logErr :: .sleepRetry (RETRY_DELAY * (i + 1)) :: rest.1, rest.2)
      else
        ([.pageReq, .logErr], .aborted)
    | .exn =>
      if i < MAX_RETRIES - 1 then
        let rest := pageLoopAux resp now (i + 1) fuel
        (.pageReq :: .logWarn :: .sleepRetry (RETRY_DELAY * (i + 1)) :: rest.1, rest.2)
      else
        ([.pageReq, .logErr], .aborted)

/-- The pagination retry loop, entered with `attempt = 0`. -/
def pageLoop (resp : Nat → PResp) (now : Int) : List Ev × PageOutcome :=
  pageLoopAux resp now 0 MAX_RETRIES

/-- Scan of the timeline body (lines 122-129): `has_linked_pr` becomes true at
the first `cross-referenced` event whose source issue is a pull request. -/
def scanTimeline (events : List TimelineEvent) : Bool :=
  events.any (fun e => e.event == "cross-referenced" && e.sourceIssueHasPR)

/-- Embedding of the timeline retry loop (lines 114-155); result is the final
value of `has_linked_pr` (initialised false at line 106).  A non-200/403
status breaks immediately (line 140); exception exhaustion breaks (line 155);
exhaustion through consecutive 403s falls out of the loop — in every
non-success case `has_linked_pr` stays false and processing continues. -/
def tlLoopAux (resp : Nat → TResp) (now : Int) : Nat → Nat → List Ev × Bool
  | _, 0 => ([], false)
  | i, fuel + 1 =>
    match resp i with
    | .ok events => ([.tlReq], scanTimeline events)
    | .rateLimited h =>
      let rest := tlLoopAux resp now (i + 1) fuel
      (.tlReq :: .waitRL (rlWait h now) :: rest.1, rest.2)
    | .errStatus _ => ([.tlReq, .logWarn], false)
    | .exn =>
      if i < MAX_RETRIES - 1 then
        let rest := tlLoopAux resp now (i + 1) fuel
        (.tlReq :: .logWarn :: .sleepRetry (RETRY_DELAY * (i + 1)) :: rest.1, rest.2)
      else
        ([.tlReq, .logErr], false)

/-- The timeline retry loop, entered with `attempt = 0`. -/
def tlLoop (resp : Nat → TResp) (now : Int) : List Ev × Bool :=
  tlLoopAux resp now 0 MAX_RETRIES

/-- Enrichment fields stored per issue URL (lines 157-163). -/
structure ExtraFields where
  milestone : Option String
  assignees : List String
  has_linked_pr : Bool
deriving DecidableEq, Repr

/-- Python dict assignment `d[k] = v` on an association list: replaces the
value at an existing key in place, else appends the new key at the end
(insertion order is preserved, as for Python dicts). -/
def setAssoc {α : Type} : List (String × α) → String → α → List (String × α)
  | [], k, v => [(k, v)]
  | (k1, v1) :: rest, k, v =>
    if k1 = k then (k1, v) :: rest else (k1, v1) :: setAssoc rest k v

/-- First-match lookup in an association list (`k in d` / `d[k]`). -/
def lookupAssoc {α : Type} : List (String × α) → String → Option α
  | [], _ => none
  | (k1, v1) :: rest, k => if k1 = k then some v1 else lookupAssoc rest k

/-- Processing of one issue of a page body (lines 102-166): PRs are skipped;
the timeline loop runs only for issues with `state == "open"`; then
`add_cols[issue["html_url"]]` is assigned the three enrichment fields and the
100ms throttle sleep runs. -/
def processIssue (tresp : Nat → Nat → TResp) (now : Int)
    (acc : List (String × ExtraFields)) (issue : IssueJson) :
    List Ev × List (String × ExtraFields) :=
  if issue.pull_request then ([], acc)
  else
    let tl := if issue.state = "open" then tlLoop (tresp issue.number) now else ([], false)
    (tl.1 ++ [.throttle],
     setAssoc acc issue.html_url
       ⟨issue.milestone, issue.assignees, tl.2⟩)

/-- Fold of `processIssue` over a page body (the `for issue in issues` loop). -/
def processIssues (tresp : Nat → Nat → TResp) (now : Int)
    (acc : List (String × ExtraFields)) :
    List IssueJson → List Ev × List (String × ExtraFields)
  | [] => ([], acc)
  | issue :: rest =>
    let r1 := processIssue tresp now acc issue
    let r2 := processIssues tresp now r1.2 rest
    (r1.1 ++ r2.1, r2.2)

/-- Overall outcome of `fetch_additional_issue_data`: `completed` is the break
on an empty page (line 100), `returned` the early `return add_cols` on retry
exhaustion, `crashed` the fall-through path that treats a 403 body as the
issue list (which raises in Python at line 107), `outOfFuel` the artificial
truncation of the unbounded `while True` page loop. -/
inductive FetchOutcome where
  | completed
  | returned
  | crashed
  | outOfFuel
deriving DecidableEq, Repr

/-- Embedding of the `while True` pagination loop of
`fetch_additional_issue_data` (lines 69-169), truncated by `fuel` pages. -/
def fetchGo (presp : Nat → Nat → PResp) (tresp : Nat → Nat → TResp) (now : Int) :
    Nat → Nat → List (String × ExtraFields) →
    List Ev × FetchOutcome × List (String × ExtraFields)
  | _, 0, acc => ([], .outOfFuel, acc)
  | page, fuel + 1, acc =>
    let pl := pageLoop (presp page) now
    match pl.2 with
    | .aborted => (pl.1, .returned, acc)
    | .fellThrough => (pl.1, .crashed, acc)
    | .success body =>
      if body = [] then (pl.1, .completed, acc)
      else
        let pr := processIssues tresp now acc body
        let rest := fetchGo presp tresp now (page + 1) fuel pr.2
        (pl.1 ++ pr.1 ++ rest.1, rest.2.1, rest.2.2)

/-- Embedding of `fetch_additional_issue_data` (lines 59-169): pages start at
1, the accumulator `add_cols` starts empty. -/
def fetch_additional_issue_data (presp : Nat → Nat → PResp)
    (tresp : Nat → Nat → TResp) (now : Int) (fuel : Nat) :
    List Ev × FetchOutcome × List (String × ExtraFields) :=
  fetchGo presp tresp now 1 fuel []

/-- Number of paginated listing requests in a trace. -/
def countReq : List Ev → Nat
  | [] => 0
  | Ev.pageReq :: rest => countReq rest + 1
  | _ :: rest => countReq rest

lemma countReq_pageLoopAux (resp : Nat → PResp) (now : Int) :
    ∀ fuel i, countReq (pageLoopAux resp now i fuel).1 ≤ fuel := by
  intro fuel
  induction fuel with
  | zero => intro i; simp [pageLoopAux, countReq]
  | succ n ih =>
    intro i
    cases h : resp i with
    | ok body => simp [pageLoopAux, h, countReq]
    | rateLimited hd =>
      simp only [pageLoopAux, h, countReq]
      exact Nat.succ_le_succ (ih (i + 1))
    | errStatus c =>
      by_cases hi : i < MAX_RETRIES - 1
      · simp only [pageLoopAux, h, hi, if_true, countReq]
        exact Nat.succ_le_succ (ih (i + 1))
      · simp [pageLoopAux, h, hi, countReq]
    | exn =>
      by_cases hi : i < MAX_RETRIES - 1
      · simp only [pageLoopAux, h, hi, if_true, countReq]
        exact Nat.succ_le_succ (ih (i + 1))
      · simp [pageLoopAux, h, hi, countReq]

lemma pageLoop_all_exn (resp : Nat → PResp) (now : Int)
    (h : ∀ i, i < MAX_RETRIES → resp i = PResp.exn) :
    pageLoop resp now
      = ([.pageReq, .logWarn, .sleepRetry 2, .pageReq, .logWarn, .sleepRetry 4,
          .pageReq, .logErr], PageOutcome.aborted) := by
  have h0 := h 0 (by decide)
  have h1 := h 1 (by decide)
  have h2 := h 2 (by decide)
  simp [pageLoop, MAX_RETRIES, pageLoopAux, h0, h1, h2, RETRY_DELAY]

lemma fetchGo_aborted (presp : Nat → Nat → PResp) (tresp : Nat → Nat → TResp)
    (now : Int) (page fuel : Nat) (acc : List (String × ExtraFields))
    (h : (pageLoop (presp page) now).2 = PageOutcome.aborted) :
    fetchGo presp tresp now page (fuel + 1) acc
      = ((pageLoop (presp page) now).1, FetchOutcome.returned, acc) := by
  simp only [fetchGo, h]

/-- C3: when every attempt for a page raises a request exception, the fetcher
makes exactly 3 attempts, sleeps 2·1 s and 2·2 s between them (linear
backoff), logs, and the enclosing fetch returns whatever enrichment entries
have accumulated so far instead of raising; in every case a page's retry loop
issues at most `MAX_RETRIES` requests. -/
theorem fetch_retry_exhaustion :
    (∀ resp now, (∀ i, i < MAX_RETRIES → resp i = PResp.exn) →
      pageLoop resp now
        = ([.pageReq, .logWarn, .sleepRetry (RETRY_DELAY * 1),
            .pageReq, .logWarn, .sleepRetry (RETRY_DELAY * 2),
            .pageReq, .logErr], PageOutcome.aborted)) ∧
    (∀ presp tresp now page fuel acc,
      (pageLoop (presp page) now).2 = PageOutcome.aborted →
      fetchGo presp tresp now page (fuel + 1) acc
        = ((pageLoop (presp page) now).1, FetchOutcome.returned, acc)) ∧
    (∀ resp now, countReq (pageLoop resp now).1 ≤ MAX_RETRIES) :=
  ⟨fun resp now h => pageLoop_all_exn resp now h,
   fun presp tresp now page fuel acc h => fetchGo_aborted presp tresp now page fuel acc h,
   fun resp now => countReq_pageLoopAux resp now MAX_RETRIES 0⟩

/-- Witness for fetch_retry_exhaustion at concrete oracles: every attempt of
page 5 raises, with one enrichment entry already accumulated. -/
theorem fetch_retry_exhaustion_witness :
    pageLoop (fun _ => PResp.exn) 0
      = ([.pageReq, .logWarn, .sleepRetry 2, .pageReq, .logWarn, .sleepRetry 4,
          .pageReq, .logErr], PageOutcome.aborted) ∧
    fetchGo (fun _ _ => PResp.exn) (fun _ _ => TResp.exn) 0 5 1
        [("https://example.com/1", ⟨some "v1.0", ["a"], true⟩)]
      = ([.pageReq, .logWarn, .sleepRetry 2, .pageReq, .logWarn, .sleepRetry 4,
          .pageReq, .logErr], FetchOutcome.returned,
         [("https://example.com/1", ⟨some "v1.0", ["a"], true⟩)]) := by
  constructor
  · exact fetch_retry_exhaustion.1 (fun _ => PResp.exn) 0 (fun i _ => rfl)
  · exact fetch_retry_exhaustion.2.1 (fun _ _ => PResp.exn) (fun _ _ => TResp.exn) 0 5 0
      [("https://example.com/1", ⟨some "v1.0", ["a"], true⟩)] (by decide)

/-! ### Rate-limit handling (C2)

The source waits and then executes `continue` inside
`for attempt in range(MAX_RETRIES)` (lines 78-80 and 131-135), so the
re-issued request advances `attempt`: a 403 consumes one of the 3 attempt
slots, and three consecutive 403s exhaust the loop. -/

/-- Modelled from the claim's words, for comparison with the source loop: a
retry loop whose 403 wait-and-resume consumes no slot of the 3-attempt
budget.  `r` is the request index, `i` the budget consumed by non-403
failures, `fuel` an artificial bound on total requests (the claimed loop
would otherwise re-issue forever under unending 403s). -/
inductive ClaimOut where
  | success
  | aborted
  | outOfFuel
deriving DecidableEq, Repr

/-- Claimed retry loop (see `ClaimOut`): not an embedding of the source. -/
def claimPageLoopAux (resp : Nat → PResp) : Nat → Nat → Nat → ClaimOut
  | _, _, 0 => .outOfFuel
  | r, i, fuel + 1 =>
    if MAX_RETRIES ≤ i then .aborted
    else match resp r with
      | .ok _ => .success
      | .rateLimited _ => claimPageLoopAux resp (r + 1) i fuel
      | .errStatus _ => claimPageLoopAux resp (r + 1) (i + 1) fuel
      | .exn => claimPageLoopAux resp (r + 1) (i + 1) fuel

/-- Response stream refuting C2: three 403s (no reset header), then a 200. -/
def c2Resp : Nat → PResp :=
  fun r => if r < 3 then PResp.rateLimited none else PResp.ok []

/-- Counterexample to C2: on three consecutive 403s followed by a success,
the source loop waits 60 s before each resumed request but stops after its 3
attempt slots are consumed (never reaching the 200), while the claimed
budget-free resumption would reach the 200 on the fourth request. -/
theorem rate_limit_no_budget_cex :
    pageLoop c2Resp 0
      = ([.pageReq, .waitRL 60, .pageReq, .waitRL 60, .pageReq, .waitRL 60],
         PageOutcome.fellThrough) ∧
    countReq (pageLoop c2Resp 0).1 = 3 ∧
    claimPageLoopAux c2Resp 0 0 10 = ClaimOut.success ∧
    PageOutcome.fellThrough ≠ PageOutcome.success ([] : List IssueJson) := by
  refine ⟨by decide, by decide, by decide, fun hc => PageOutcome.noConfusion hc⟩

/-- C2 (amended): on a 403 the fetcher waits `reset − now + 1` seconds (60 s
without the header) and re-issues the request, but the resumed request
consumes one attempt slot; three consecutive 403s exhaust the attempt loop. -/
theorem rate_limit_handling_amended :
    (∀ r now, rlWait (some r) now = max (r - now) 0 + 1) ∧
    (∀ now, rlWait none now = (60 : Int)) ∧
    (∀ resp now i fuel h, resp i = PResp.rateLimited h →
      pageLoopAux resp now i (fuel + 1)
        = (Ev.pageReq :: Ev.waitRL (rlWait h now) :: (pageLoopAux resp now (i + 1) fuel).1,
           (pageLoopAux resp now (i + 1) fuel).2)) ∧
    (∀ resp now i fuel h, resp i = TResp.rateLimited h →
      tlLoopAux resp now i (fuel + 1)
        = (Ev.tlReq :: Ev.waitRL (rlWait h now) :: (tlLoopAux resp now (i + 1) fuel).1,
           (tlLoopAux resp now (i + 1) fuel).2)) ∧
    (∀ (resp : Nat → PResp) (now : Int) (hd : Nat → Option Int),
      (∀ i, i < MAX_RETRIES → resp i = PResp.rateLimited (hd i)) →
      pageLoop resp now
        = ([.pageReq, .waitRL (rlWait (hd 0) now),
            .pageReq, .waitRL (rlWait (hd 1) now),
            .pageReq, .waitRL (rlWait (hd 2) now)], PageOutcome.fellThrough)) := by
  refine ⟨fun r now => rfl, fun now => rfl, ?_, ?_, ?_⟩
  · intro resp now i fuel h hresp
    simp [pageLoopAux, hresp]
  · intro resp now i fuel h hresp
    simp [tlLoopAux, hresp]
  · intro resp now hd h
    have h0 := h 0 (by decide)
    have h1 := h 1 (by decide)
    have h2 := h 2 (by decide)
    simp [pageLoop, MAX_RETRIES, pageLoopAux, h0, h1, h2]

/-- Witness for rate_limit_handling_amended: a 403 carrying reset time
`now + 5` produces a 6-second wait and hands the next attempt index to the
continuation. -/
theorem rate_limit_handling_amended_witness :
    pageLoopAux (fun _ => PResp.rateLimited (some 105)) 100 0 3
      = (Ev.pageReq :: Ev.waitRL 6
           :: (pageLoopAux (fun _ => PResp.rateLimited (some 105)) 100 1 2).1,
         (pageLoopAux (fun _ => PResp.rateLimited (some 105)) 100 1 2).2) ∧
    pageLoop (fun _ => PResp.rateLimited (some 105)) 100
      = ([.pageReq, .waitRL 6, .pageReq, .waitRL 6, .pageReq, .waitRL 6],
         PageOutcome.fellThrough) := by
  constructor
  · have h := rate_limit_handling_amended.2.2.1
      (fun _ => PResp.rateLimited (some 105)) 100 0 2 (some 105) rfl
    simpa using h
  · have h := rate_limit_handling_amended.2.2.2.2
      (fun _ => PResp.rateLimited (some 105)) 100 (fun _ => some 105) (fun i _ => rfl)
    simpa using h

/-! ### Non-success statuses other than 403 (C8)

On the paginated listing request (lines 81-88), a non-200/403 status is
logged and then *retried* with linear backoff; only the last attempt's error
status aborts the fetch.  On the timeline request (lines 136-140), it is
logged and the timeline fetch is abandoned immediately (no retry). -/

/-- Response stream refuting C8 on the listing request: one 500, then 200. -/
def c8Resp : Nat → PResp :=
  fun i => if i = 0 then PResp.errStatus 500 else PResp.ok []

/-- Counterexample to C8: a 500 on the first attempt of a listing request is
logged and retried (backoff sleep of 2 s), and the page fetch then succeeds —
it is not abandoned. -/
theorem err_status_abandon_cex :
    pageLoop c8Resp 0
      = ([.pageReq, .logErr, .sleepRetry 2, .pageReq], PageOutcome.success []) ∧
    PageOutcome.success ([] : List IssueJson) ≠ PageOutcome.aborted := by
  refine ⟨by decide, fun hc => PageOutcome.noConfusion hc⟩

lemma tlLoop_all_exn (resp : Nat → TResp) (now : Int)
    (h : ∀ i, i < MAX_RETRIES → resp i = TResp.exn) :
    tlLoop resp now
      = ([.tlReq, .logWarn, .sleepRetry 2, .tlReq, .logWarn, .sleepRetry 4,
          .tlReq, .logErr], false) := by
  have h0 := h 0 (by decide)
  have h1 := h 1 (by decide)
  have h2 := h 2 (by decide)
  simp [tlLoop, MAX_RETRIES, tlLoopAux, h0, h1, h2, RETRY_DELAY]

/-- C8 (amended): a non-200/403 status on the listing request is logged and
retried with linear backoff, aborting the fetch (returning the accumulated
entries) only when it occurs on the last attempt; on the timeline request it
is logged and abandons that timeline fetch immediately, yielding
`has_linked_pr = false`, the same result as retry exhaustion produces. -/
theorem err_status_handling_amended :
    (∀ resp now i fuel c, i < MAX_RETRIES - 1 → resp i = PResp.errStatus c →
      pageLoopAux resp now i (fuel + 1)
        = (Ev.pageReq :: Ev.logErr :: Ev.sleepRetry (RETRY_DELAY * (i + 1))
             :: (pageLoopAux resp now (i + 1) fuel).1,
           (pageLoopAux resp now (i + 1) fuel).2)) ∧
    (∀ resp now fuel c, resp (MAX_RETRIES - 1) = PResp.errStatus c →
      pageLoopAux resp now (MAX_RETRIES - 1) (fuel + 1)
        = ([Ev.pageReq, Ev.logErr], PageOutcome.aborted)) ∧
    (∀ presp tresp now page fuel acc,
      (pageLoop (presp page) now).2 = PageOutcome.aborted →
      fetchGo presp tresp now page (fuel + 1) acc
        = ((pageLoop (presp page) now).1, FetchOutcome.returned, acc)) ∧
    (∀ resp now i fuel c, resp i = TResp.errStatus c →
      tlLoopAux resp now i (fuel + 1) = ([Ev.tlReq, Ev.logWarn], false)) ∧
    (∀ resp now, (∀ i, i < MAX_RETRIES → resp i = TResp.exn) →
      tlLoop resp now
        = ([.tlReq, .logWarn, .sleepRetry 2, .tlReq, .logWarn, .sleepRetry 4,
            .tlReq, .logErr], false)) := by
  refine ⟨?_, ?_, ?_, ?_, ?_⟩
  · intro resp now i fuel c hi hresp
    simp [pageLoopAux, hresp, hi]
  · intro resp now fuel c hresp
    simp only [MAX_RETRIES] at hresp
    simp [pageLoopAux, hresp, MAX_RETRIES]
  · intro presp tresp now page fuel acc h
    exact fetchGo_aborted presp tresp now page fuel acc h
  · intro resp now i fuel c hresp
    simp [tlLoopAux, hresp]
  · intro resp now h
    exact tlLoop_all_exn resp now h

/-- Witness for err_status_handling_amended at concrete streams: a 500 on a
non-final attempt retries; a 500 on the final attempt aborts; a 404 on a
timeline request abandons it immediately; timeline retry exhaustion yields
the same `false`. -/
theorem err_status_handling_amended_witness :
    pageLoopAux (fun _ => PResp.errStatus 500) 0 0 3
      = (Ev.pageReq :: Ev.logErr :: Ev.sleepRetry 2
           :: (pageLoopAux (fun _ => PResp.errStatus 500) 0 1 2).1,
         (pageLoopAux (fun _ => PResp.errStatus 500) 0 1 2).2) ∧
    pageLoopAux (fun _ => PResp.errStatus 500) 0 2 1
      = ([Ev.pageReq, Ev.logErr], PageOutcome.aborted) ∧
    tlLoopAux (fun _ => TResp.errStatus 404) 0 0 3 = ([Ev.tlReq, Ev.logWarn], false) ∧
    tlLoop (fun _ => TResp.exn) 0
      = ([.tlReq, .logWarn, .sleepRetry 2, .tlReq, .logWarn, .sleepRetry 4,
          .tlReq, .logErr], false) := by
  refine ⟨?_, ?_, ?_, ?_⟩
  · have h := err_status_handling_amended.1 (fun _ => PResp.errStatus 500) 0 0 2 500
      (by decide) rfl
    simpa using h
  · have h := err_status_handling_amended.2.1 (fun _ => PResp.errStatus 500) 0 0 500 rfl
    simpa using h
  · exact err_status_handling_amended.2.2.2.1 (fun _ => TResp.errStatus 404) 0 0 2 404 rfl
  · exact err_status_handling_amended.2.2.2.2 (fun _ => TResp.exn) 0 (fun i _ => rfl)

/-! ## Maintainer-response classifier (update_issues.py, lines 172-213)

`add_maintainer_responses` lowercases the maintainer list once, then for each
issue extracts the issue number from `html_url`, fetches the issue's comments
through a retry loop (every exception is caught), and scans them for a comment
whose author login, lowercased, is in the lowered maintainer list.  The
comment-retrieval capability (PyGithub) is modelled as an oracle from attempt
index to either a comment list or an exception. -/

/-- Python `str.lower()` restricted to ASCII, as GitHub logins are. -/
def pyLower (s : String) : String := ⟨s.data.map Char.toLower⟩

/-- One issue comment, restricted to the field line 195 reads
(`comment.user.login`). -/
structure Comment where
  login : String
deriving DecidableEq, Repr

/-- Scan of the comment list (lines 194-197): result of the
`maintainer_responded` flag together with the number of comments examined
(the loop breaks at the first match). -/
def scanComments (maintainersLower : List String) : List Comment → Bool × Nat
  | [] => (false, 0)
  | c :: rest =>
    if pyLower c.login ∈ maintainersLower then (true, 1)
    else
      let r := scanComments maintainersLower rest
      (r.1, r.2 + 1)

/-- Outcome of one comment-retrieval attempt: the comment list, or any
exception (`except Exception` at line 199 catches everything). -/
inductive CResp where
  | ok (comments : List Comment)
  | exn
deriving DecidableEq, Repr

/-- Embedding of the comment retry loop (lines 191-210): on success the
comments are scanned and the loop breaks; on an exception the attempt is
logged and, except on the last attempt, retried after a linear-backoff
sleep; exhaustion leaves `maintainer_responded = False`. -/
def commentRetryAux (resp : Nat → CResp) (maintainersLower : List String) :
    Nat → Nat → List Ev × Bool
  | _, 0 => ([], false)
  | i, fuel + 1 =>
    match resp i with
    | .ok comments => ([], (scanComments maintainersLower comments).1)
    | .exn =>
      if i < MAX_RETRIES - 1 then
        let rest := commentRetryAux resp maintainersLower (i + 1) fuel
        (.logWarn :: .sleepRetry (RETRY_DELAY * (i + 1)) :: rest.1, rest.2)
      else ([.logErr], false)

/-- Python `url.rstrip("/")`, on the character list. -/
def pyRstripSlashes (cs : List Char) : List Char :=
  (cs.reverse.dropWhile (fun c => c == '/')).reverse

/-- Python `s.split("/")` for a one-character separator: always returns a
non-empty list of (possibly empty) segments. -/
def pySplitSlash : List Char → List (List Char)
  | [] => [[]]
  | c :: rest =>
    match pySplitSlash rest with
    | [] => [[c]]
    | p :: ps => if c = '/' then [] :: p :: ps else (c :: p) :: ps

/-- Numeric value of a non-empty all-digit character list, else `none`. -/
def digitsToNatOpt (cs : List Char) : Option Nat :=
  if cs = [] then none
  else if cs.all Char.isDigit then some (digitsVal cs) else none

/-- Python `int(s)`: optional sign then digits, the whole string consumed;
`none` models the `ValueError`. -/
def pyIntOfChars (cs : List Char) : Option Int :=
  match cs with
  | '-' :: rest => (digitsToNatOpt rest).map (fun n => -(n : Int))
  | '+' :: rest => (digitsToNatOpt rest).map (fun n => (n : Int))
  | other => (digitsToNatOpt other).map (fun n => (n : Int))

/-- Embedding of `int(url.rstrip("/").split("/")[-1])` under the
`try/except` of lines 184-187: `none` is `issue_number = None`. -/
def urlIssueNumber (url : String) : Option Int :=
  pyIntOfChars ((pySplitSlash (pyRstripSlashes url.data)).getLastD [])

/-- Per-issue body of `add_maintainer_responses` (lines 181-213): the event
trace and the value assigned to `issue["maintainer_responded"]`. -/
def addMaintainerResponded (maintainers : List String) (resp : Nat → CResp)
    (url : String) : List Ev × Bool :=
  let maintainersLower := maintainers.map pyLower
  match urlIssueNumber url with
  | none => ([.logWarn], false)
  | some _ => commentRetryAux resp maintainersLower 0 MAX_RETRIES


lemma scanComments_fst_iff (ml : List String) :
    ∀ cs, (scanComments ml cs).1 = true ↔ ∃ c ∈ cs, pyLower c.login ∈ ml := by
  intro cs
  induction cs with
  | nil => simp [scanComments]
  | cons c rest ih =>
    by_cases h : pyLower c.login ∈ ml
    · simp only [scanComments, if_pos h]
      exact ⟨fun _ => ⟨c, List.mem_cons_self c rest, h⟩, fun _ => trivial⟩
    · simp only [scanComments, if_neg h]
      rw [ih]
      constructor
      · rintro ⟨c2, hc2, hm⟩
        exact ⟨c2, List.mem_cons_of_mem c hc2, hm⟩
      · rintro ⟨c2, hc2, hm⟩
        rcases List.mem_cons.mp hc2 with he | hm2
        · exact absurd (he ▸ hm) h
        · exact ⟨c2, hm2, hm⟩

/-- C6: with the issue number derivable from the URL and the comments
retrieved on the first attempt, the classifier is true iff some comment
author, lowercased, equals some lowercased maintainer; the comment scan stops
at the first matching comment (its result and examined count are independent
of the comments after it); and author "Alice" matches maintainer "alice". -/
theorem maintainer_response_spec :
    (∀ (maintainers : List String) (resp : Nat → CResp) (url : String) (n : Int)
        (comments : List Comment),
      urlIssueNumber url = some n → resp 0 = CResp.ok comments →
      ((addMaintainerResponded maintainers resp url).2 = true ↔
        ∃ c ∈ comments, ∃ m ∈ maintainers, pyLower c.login = pyLower m)) ∧
    (∀ (ml : List String) (pre post : List Comment) (c : Comment),
      (∀ c2 ∈ pre, pyLower c2.login ∉ ml) →
      pyLower c.login ∈ ml →
      scanComments ml (pre ++ c :: post) = (true, pre.length + 1)) ∧
    (addMaintainerResponded ["alice"] (fun _ => CResp.ok [⟨"Alice"⟩])
        "https://github.com/o/r/issues/7").2 = true := by
  refine ⟨?_, ?_, by decide⟩
  · intro maintainers resp url n comments hurl hresp
    unfold addMaintainerResponded
    rw [hurl]
    simp only [MAX_RETRIES, commentRetryAux, hresp]
    rw [scanComments_fst_iff]
    constructor
    · rintro ⟨c, hc, hm⟩
      rcases List.mem_map.mp hm with ⟨m0, hm0, hme⟩
      exact ⟨c, hc, m0, hm0, hme.symm⟩
    · rintro ⟨c, hc, m0, hm0, he⟩
      exact ⟨c, hc, List.mem_map.mpr ⟨m0, hm0, he.symm⟩⟩
  · intro ml pre post c hpre hc
    induction pre with
    | nil => simp [scanComments, hc]
    | cons a as ih =>
      have ha := hpre a (List.mem_cons_self a as)
      have ih2 := ih (fun c2 hc2 => hpre c2 (List.mem_cons_of_mem a hc2))
      simp only [List.cons_append, scanComments, if_neg ha, List.append_eq, ih2,
        List.length_cons]

/-- Witness for maintainer_response_spec at concrete inputs: a "BOB" comment
matches maintainer "bob" and the scan stops after 2 of 3 comments. -/
theorem maintainer_response_spec_witness :
    ((addMaintainerResponded ["bob"] (fun _ => CResp.ok [⟨"carol"⟩, ⟨"BOB"⟩, ⟨"dan"⟩])
        "https://github.com/holoviz/panel/issues/42").2 = true ↔
      ∃ c ∈ [Comment.mk "carol", Comment.mk "BOB", Comment.mk "dan"],
        ∃ m ∈ ["bob"], pyLower c.login = pyLower m) ∧
    scanComments ["bob"] ([⟨"carol"⟩] ++ Comment.mk "BOB" :: [⟨"dan"⟩]) = (true, 2) := by
  constructor
  · exact maintainer_response_spec.1 ["bob"] (fun _ => CResp.ok [⟨"carol"⟩, ⟨"BOB"⟩, ⟨"dan"⟩])
      "https://github.com/holoviz/panel/issues/42" 42 [⟨"carol"⟩, ⟨"BOB"⟩, ⟨"dan"⟩]
      (by decide) rfl
  · exact maintainer_response_spec.2.1 ["bob"] [⟨"carol"⟩] [⟨"dan"⟩] ⟨"BOB"⟩
      (by decide) (by decide)

/-- C7: when no issue number can be parsed from the URL the record gets
`maintainer_responded = false` with exactly one warning logged; when every
comment-retrieval attempt raises, the field is false after the three logged
attempts (two warnings, then the final error line); in both cases the model
returns normally. -/
theorem maintainer_response_error_paths :
    (∀ (maintainers : List String) (resp : Nat → CResp) (url : String),
      urlIssueNumber url = none →
      addMaintainerResponded maintainers resp url = ([Ev.logWarn], false)) ∧
    (∀ (maintainers : List String) (resp : Nat → CResp) (url : String) (n : Int),
      urlIssueNumber url = some n →
      (∀ i, i < MAX_RETRIES → resp i = CResp.exn) →
      addMaintainerResponded maintainers resp url
        = ([.logWarn, .sleepRetry 2, .logWarn, .sleepRetry 4, .logErr], false)) := by
  constructor
  · intro maintainers resp url hurl
    unfold addMaintainerResponded
    rw [hurl]
  · intro maintainers resp url n hurl h
    have h0 := h 0 (by decide)
    have h1 := h 1 (by decide)
    have h2 := h 2 (by decide)
    unfold addMaintainerResponded
    rw [hurl]
    simp [MAX_RETRIES, commentRetryAux, h0, h1, h2, RETRY_DELAY]

/-- Witness for maintainer_response_error_paths: a URL with no trailing
number, and a URL with number 42 whose retrieval always raises. -/
theorem maintainer_response_error_paths_witness :
    addMaintainerResponded ["bob"] (fun _ => CResp.ok []) "https://example.com/abc"
      = ([Ev.logWarn], false) ∧
    addMaintainerResponded ["bob"] (fun _ => CResp.exn) "https://github.com/o/r/issues/42"
      = ([.logWarn, .sleepRetry 2, .logWarn, .sleepRetry 4, .logErr], false) := by
  constructor
  · exact maintainer_response_error_paths.1 ["bob"] (fun _ => CResp.ok [])
      "https://example.com/abc" (by decide)
  · exact maintainer_response_error_paths.2 ["bob"] (fun _ => CResp.exn)
      "https://github.com/o/r/issues/42" 42 (by decide) (fun i _ => rfl)

/-! ## Enrichment merge (update_issues.py, lines 216-244)

Issue records are JSON objects, modelled as association lists from key to
JSON value in insertion order, as Python dicts preserve it.  `issue.update(m)`
overwrites the value at each existing key in place and appends new keys at
the end, which `setAssoc` (one key) and `updateDict` (a whole mapping)
reproduce. -/

/-- JSON values, as far as the merged records need them. -/
inductive JVal where
  | jnull
  | jbool (b : Bool)
  | jnum (n : Int)
  | jstr (s : String)
  | jarr (a : List JVal)
deriving Repr

/-- Python `d.update(e)`: `setAssoc` applied for each key of `e` in order. -/
def updateDict {α : Type} (d e : List (String × α)) : List (String × α) :=
  e.foldl (fun acc kv => setAssoc acc kv.1 kv.2) d

/-- The dict literal of lines 157-163, the value stored per issue URL. -/
def extraToRecord (e : ExtraFields) : List (String × JVal) :=
  [("milestone", match e.milestone with | some s => JVal.jstr s | none => JVal.jnull),
   ("assignees", JVal.jarr (e.assignees.map JVal.jstr)),
   ("has_linked_pr", JVal.jbool e.has_linked_pr)]

/-- Lines 234-235: `url = issue.get("html_url")` followed by
`url in extra_data` / `extra_data[url]`.  A missing `html_url`, a non-string
value, or an unmatched URL all yield `none` (the keys of `extra_data` are the
strings assigned at line 157). -/
def enrichmentFor (extra : List (String × ExtraFields))
    (issue : List (String × JVal)) : Option ExtraFields :=
  match lookupAssoc issue "html_url" with
  | some (JVal.jstr url) => lookupAssoc extra url
  | _ => none

/-- One iteration of the merge loop (lines 233-238): the resulting record and
the number of warnings logged for it. -/
def mergeIssue (extra : List (String × ExtraFields))
    (issue : List (String × JVal)) : List (String × JVal) × Nat :=
  match enrichmentFor extra issue with
  | some e => (updateDict issue (extraToRecord e), 0)
  | none => (issue, 1)

/-- The whole merge loop over `data["issues"]`: merged records and the total
warning count. -/
def mergeStep (extra : List (String × ExtraFields))
    (issues : List (List (String × JVal))) :
    List (List (String × JVal)) × Nat :=
  (issues.map (fun r => (mergeIssue extra r).1),
   (issues.map (fun r => (mergeIssue extra r).2)).sum)


lemma keys_setAssoc {α : Type} (d : List (String × α)) (k k2 : String) (v2 : α)
    (h : k ∈ d.map Prod.fst) : k ∈ (setAssoc d k2 v2).map Prod.fst := by
  induction d with
  | nil => simp at h
  | cons p rest ih =>
    cases p with
    | mk k1 v1 =>
    simp only [List.map_cons, List.mem_cons] at h
    by_cases he : k1 = k2
    · simp only [setAssoc, if_pos he, List.map_cons, List.mem_cons]
      exact h
    · simp only [setAssoc, if_neg he, List.map_cons, List.mem_cons]
      rcases h with h | h
      · exact Or.inl h
      · exact Or.inr (ih h)

lemma mem_keys_setAssoc_self {α : Type} (d : List (String × α)) (k : String) (v : α) :
    k ∈ (setAssoc d k v).map Prod.fst := by
  induction d with
  | nil => simp [setAssoc]
  | cons p rest ih =>
    cases p with
    | mk k1 v1 =>
    by_cases he : k1 = k
    · simp [setAssoc, he]
    · simp only [setAssoc, if_neg he, List.map_cons, List.mem_cons]
      exact Or.inr ih

lemma setAssoc_setAssoc_same {α : Type} (d : List (String × α)) (k : String) (v v2 : α) :
    setAssoc (setAssoc d k v2) k v = setAssoc d k v := by
  induction d with
  | nil => simp [setAssoc]
  | cons p rest ih =>
    cases p with
    | mk k1 v1 =>
    by_cases he : k1 = k
    · simp [setAssoc, he]
    · simp [setAssoc, he, ih]

lemma setAssoc_comm_of_mem {α : Type} (d : List (String × α)) (k k2 : String)
    (v v2 : α) (hne : k ≠ k2) (hk : k ∈ d.map Prod.fst) :
    setAssoc (setAssoc d k2 v2) k v = setAssoc (setAssoc d k v) k2 v2 := by
  induction d with
  | nil => simp at hk
  | cons p rest ih =>
    cases p with
    | mk k1 v1 =>
    by_cases h1 : k1 = k
    · have h12 : ¬ k1 = k2 := by rw [h1]; exact hne
      simp [setAssoc, h1, h12, hne]
    · by_cases h2 : k1 = k2
      · simp [setAssoc, h1, h2, Ne.symm hne]
      · have hk2 : k ∈ rest.map Prod.fst := by
          simp only [List.map_cons, List.mem_cons] at hk
          rcases hk with hk | hk
          · exact absurd hk.symm h1
          · exact hk
        simp [setAssoc, h1, h2, ih hk2]

lemma setAssoc_updateDict {α : Type} (e : List (String × α)) :
    ∀ (d : List (String × α)) (k : String) (v : α),
      k ∈ d.map Prod.fst → k ∉ e.map Prod.fst →
      setAssoc (updateDict d e) k v = updateDict (setAssoc d k v) e := by
  induction e with
  | nil => intro d k v _ _; rfl
  | cons p rest ih =>
    intro d k v hk hne
    cases p with
    | mk k2 v2 =>
    simp only [List.map_cons, List.mem_cons] at hne
    push_neg at hne
    have hkne : k ≠ k2 := hne.1
    have hrest : k ∉ rest.map Prod.fst := hne.2
    show setAssoc (updateDict (setAssoc d k2 v2) rest) k v
      = updateDict (setAssoc (setAssoc d k v) k2 v2) rest
    rw [ih (setAssoc d k2 v2) k v (keys_setAssoc d k k2 v2 hk) hrest]
    rw [setAssoc_comm_of_mem d k k2 v v2 hkne hk]

lemma updateDict_idem {α : Type} (e : List (String × α)) :
    ∀ d : List (String × α), (e.map Prod.fst).Nodup →
      updateDict (updateDict d e) e = updateDict d e := by
  induction e with
  | nil => intro d _; rfl
  | cons p rest ih =>
    intro d hnd
    cases p with
    | mk k v =>
    simp only [List.map_cons, List.nodup_cons] at hnd
    show updateDict (setAssoc (updateDict (setAssoc d k v) rest) k v) rest
      = updateDict (setAssoc d k v) rest
    rw [setAssoc_updateDict rest (setAssoc d k v) k v (mem_keys_setAssoc_self d k v) hnd.1]
    rw [setAssoc_setAssoc_same]
    exact ih (setAssoc d k v) hnd.2

lemma lookupAssoc_setAssoc_ne {α : Type} (d : List (String × α)) (k k2 : String) (v : α)
    (h : k ≠ k2) : lookupAssoc (setAssoc d k2 v) k = lookupAssoc d k := by
  induction d with
  | nil => simp [setAssoc, lookupAssoc, Ne.symm h]
  | cons p rest ih =>
    cases p with
    | mk k1 v1 =>
    by_cases h1 : k1 = k2
    · have h1k : ¬ k1 = k := by rw [h1]; exact Ne.symm h
      simp [setAssoc, lookupAssoc, h1, h1k, Ne.symm h]
    · by_cases h1k : k1 = k
      · simp [setAssoc, lookupAssoc, h1, h1k, h]
      · simp [setAssoc, lookupAssoc, h1, h1k, ih]

lemma lookupAssoc_updateDict {α : Type} (e : List (String × α)) :
    ∀ (d : List (String × α)) (k : String), k ∉ e.map Prod.fst →
      lookupAssoc (updateDict d e) k = lookupAssoc d k := by
  induction e with
  | nil => intro d k _; rfl
  | cons p rest ih =>
    intro d k hk
    cases p with
    | mk k2 v2 =>
    simp only [List.map_cons, List.mem_cons] at hk
    push_neg at hk
    show lookupAssoc (updateDict (setAssoc d k2 v2) rest) k = lookupAssoc d k
    rw [ih (setAssoc d k2 v2) k hk.2]
    exact lookupAssoc_setAssoc_ne d k k2 v2 hk.1

lemma keys_extraToRecord (e : ExtraFields) :
    (extraToRecord e).map Prod.fst = ["milestone", "assignees", "has_linked_pr"] := rfl

lemma enrichmentFor_updateDict (extra : List (String × ExtraFields))
    (issue : List (String × JVal)) (e : ExtraFields) :
    enrichmentFor extra (updateDict issue (extraToRecord e)) = enrichmentFor extra issue := by
  unfold enrichmentFor
  rw [lookupAssoc_updateDict (extraToRecord e) issue "html_url"
    (by rw [keys_extraToRecord]; decide)]

lemma mergeIssue_fst_idem (extra : List (String × ExtraFields))
    (issue : List (String × JVal)) :
    (mergeIssue extra (mergeIssue extra issue).1).1 = (mergeIssue extra issue).1 := by
  cases henr : enrichmentFor extra issue with
  | none => simp [mergeIssue, henr]
  | some e =>
    simp only [mergeIssue, henr]
    rw [enrichmentFor_updateDict extra issue e, henr]
    exact updateDict_idem (extraToRecord e) issue (by rw [keys_extraToRecord]; decide)

/-- C4: the enrichment merge is idempotent — applying the merge loop a second
time with the same enrichment mapping leaves the records unchanged (the
update overwrites the three enrichment fields, it does not accumulate). -/
theorem merge_idempotent :
    ∀ (extra : List (String × ExtraFields)) (issues : List (List (String × JVal))),
      (mergeStep extra (mergeStep extra issues).1).1 = (mergeStep extra issues).1 := by
  intro extra issues
  induction issues with
  | nil => rfl
  | cons r rest ih =>
    simp only [mergeStep, List.map_cons] at ih ⊢
    rw [mergeIssue_fst_idem extra r]
    exact congrArg (List.cons (mergeIssue extra r).1) ih

/-- C5: a record whose URL has no enrichment entry passes through the merge
loop byte-for-byte unchanged with exactly one warning logged for it, and the
merge handles each record positionally independently of the others. -/
theorem merge_unmatched_frame :
    (∀ (extra : List (String × ExtraFields)) (issue : List (String × JVal)),
      enrichmentFor extra issue = none → mergeIssue extra issue = (issue, 1)) ∧
    (∀ (extra : List (String × ExtraFields)) (pre post : List (List (String × JVal)))
        (issue : List (String × JVal)),
      (mergeStep extra (pre ++ issue :: post)).1
        = (mergeStep extra pre).1 ++ (mergeIssue extra issue).1 :: (mergeStep extra post).1) := by
  constructor
  · intro extra issue henr
    simp [mergeIssue, henr]
  · intro extra pre post issue
    simp [mergeStep, List.map_append]

/-- Witness for merge_unmatched_frame: a record whose URL is absent from the
enrichment mapping is returned unchanged with one warning. -/
theorem merge_unmatched_frame_witness :
    mergeIssue [("https://x/2", ⟨some "v1", [], true⟩)]
        [("html_url", JVal.jstr "https://x/1"), ("title", JVal.jstr "t")]
      = ([("html_url", JVal.jstr "https://x/1"), ("title", JVal.jstr "t")], 1) :=
  merge_unmatched_frame.1 [("https://x/2", ⟨some "v1", [], true⟩)]
    [("html_url", JVal.jstr "https://x/1"), ("title", JVal.jstr "t")] rfl

/-! ## merge_and_save (lines 216-244) and convert_json (convert_json.py)

Both functions are modelled at the level of their control flow and file-system
effects: the parsed input's shape (presence of the `issues` key; the columns
the records provide), an event trace, and the value written to the output
file when one is written.  `add_maintainer_responses` appears in the trace as
one event; its per-record computation is `addMaintainerResponded` above. -/

/-- Side effects of `merge_and_save` and `convert_json`, in program order. -/
inductive MEv where
  | readInput
  | logError
  | logWarnM
  | fetchExtra
  | addMaint
  | writeOutput
  | deleteInput
  | logInfo
deriving DecidableEq, Repr

/-- Embedding of `merge_and_save` (lines 216-244): read the input (line 219);
on a missing `issues` key log an error and return with no write and no delete
(lines 222-224); otherwise fetch the enrichment mapping (line 226), run the
maintainer pass when a maintainer list was given (lines 229-230), run the
merge loop with one warning per unmatched record (lines 233-238), write the
output (lines 240-241), delete the input (line 242) and log (lines 243-244). -/
def merge_and_save_model (hasIssuesKey : Bool)
    (issues : List (List (String × JVal)))
    (extra : List (String × ExtraFields)) (maintainersGiven : Bool) :
    List MEv × Option (List (List (String × JVal))) :=
  if hasIssuesKey = false then
    ([.readInput, .logError], none)
  else
    ([.readInput, .fetchExtra]
       ++ (if maintainersGiven then [.addMaint] else [])
       ++ List.replicate (mergeStep extra issues).2 .logWarnM
       ++ [.writeOutput, .deleteInput, .logInfo, .logInfo],
     some (mergeStep extra issues).1)

/-- Columns of `pd.DataFrame(records)`: the union of the records' keys in
order of first appearance. -/
def dfColumns (issues : List (List (String × JVal))) : List String :=
  issues.foldl (fun acc r => acc ++ (r.map Prod.fst).filter (fun k => decide (k ∉ acc))) []

/-- Default `cols_to_convert` of convert_json.py lines 31-36. -/
def defaultTimedeltaCols : List String :=
  ["time_to_first_response", "time_to_close", "time_to_answer", "time_in_draft"]

/-- Embedding of `convert_json` (convert_json.py lines 11-86): missing file or
missing `issues` key log an error and return without writing (lines 40-49);
otherwise each absent convertible or optional column logs a warning
(lines 54-65); a missing `created_at` column logs an error and returns
without writing (lines 72-74); else `created_at` becomes the index,
`label_metrics` is dropped, and the frame is written (lines 68-83).  The
written value is modelled by its column list. -/
def convert_json_model (fileExists hasIssuesKey : Bool)
    (issues : List (List (String × JVal))) : List MEv × Option (List String) :=
  if fileExists = false then ([.logError], none)
  else if hasIssuesKey = false then ([.logError], none)
  else
    let cols := dfColumns issues
    let warns1 := (defaultTimedeltaCols.filter (fun c => decide (c ∉ cols))).map
      (fun _ => MEv.logWarnM)
    let warns2 := ((["milestone", "user", "assignees"].filter (fun c => decide (c ∉ cols))).map
      (fun _ => MEv.logWarnM))
    if "created_at" ∈ cols then
      (warns1 ++ warns2 ++ [.writeOutput, .logInfo],
       some (cols.filter (fun c => decide (c ≠ "created_at" ∧ c ≠ "label_metrics"))))
    else
      (warns1 ++ warns2 ++ [.logError], none)

/-- C9: a missing `issues` key makes `merge_and_save` log an error and return
with no output written and no input deleted; `convert_json` does the same on
a missing `issues` key, and on a missing `created_at` column it logs an error
and writes nothing. -/
theorem missing_key_aborts :
    (∀ issues extra mg,
      merge_and_save_model false issues extra mg = ([MEv.readInput, MEv.logError], none)) ∧
    (∀ issues, convert_json_model true false issues = ([MEv.logError], none)) ∧
    (∀ issues, "created_at" ∉ dfColumns issues →
      (convert_json_model true true issues).2 = none ∧
      MEv.writeOutput ∉ (convert_json_model true true issues).1 ∧
      MEv.deleteInput ∉ (convert_json_model true true issues).1 ∧
      MEv.logError ∈ (convert_json_model true true issues).1) := by
  refine ⟨fun issues extra mg => rfl, fun issues => rfl, ?_⟩
  intro issues h
  simp only [convert_json_model, if_neg h]
  refine ⟨rfl, ?_, ?_, ?_⟩
  · intro hmem
    rcases List.mem_append.mp hmem with h1 | h2
    · rcases List.mem_append.mp h1 with ha | hb
      · rcases List.mem_map.mp ha with ⟨c, _, hc⟩
        exact MEv.noConfusion hc
      · rcases List.mem_map.mp hb with ⟨c, _, hc⟩
        exact MEv.noConfusion hc
    · simp at h2
  · intro hmem
    rcases List.mem_append.mp hmem with h1 | h2
    · rcases List.mem_append.mp h1 with ha | hb
      · rcases List.mem_map.mp ha with ⟨c, _, hc⟩
        exact MEv.noConfusion hc
      · rcases List.mem_map.mp hb with ⟨c, _, hc⟩
        exact MEv.noConfusion hc
    · simp at h2
  · exact List.mem_append.mpr (Or.inr (List.mem_singleton.mpr rfl))

/-- Witness for missing_key_aborts: a one-record dataset without a
`created_at` key is not converted. -/
theorem missing_key_aborts_witness :
    (convert_json_model true true [[("html_url", JVal.jstr "u")]]).2 = none ∧
    MEv.writeOutput ∉ (convert_json_model true true [[("html_url", JVal.jstr "u")]]).1 := by
  have h := missing_key_aborts.2.2 [[("html_url", JVal.jstr "u")]] (by decide)
  exact ⟨h.1, h.2.1⟩

/-- C10: on the success path `merge_and_save` writes the output and only then
deletes the input (no write or delete occurs earlier in the trace); on the
missing-`issues` error path the input is never deleted. -/
theorem delete_input_after_write :
    (∀ issues extra mg, ∃ pre,
      (merge_and_save_model true issues extra mg).1
        = pre ++ [MEv.writeOutput, MEv.deleteInput, MEv.logInfo, MEv.logInfo] ∧
      ∀ e ∈ pre, e ≠ MEv.writeOutput ∧ e ≠ MEv.deleteInput) ∧
    (∀ issues extra mg,
      MEv.deleteInput ∉ (merge_and_save_model false issues extra mg).1) := by
  constructor
  · intro issues extra mg
    refine ⟨[MEv.readInput, MEv.fetchExtra] ++ (if mg then [MEv.addMaint] else [])
      ++ List.replicate (mergeStep extra issues).2 MEv.logWarnM, ?_, ?_⟩
    · simp [merge_and_save_model, List.append_assoc]
    · intro e he
      rcases List.mem_append.mp he with h1 | h2
      · rcases List.mem_append.mp h1 with ha | hb
        · rcases List.mem_cons.mp ha with rfl | ha2
          · exact ⟨fun hc => MEv.noConfusion hc, fun hc => MEv.noConfusion hc⟩
          · rcases List.mem_singleton.mp ha2 with rfl
            exact ⟨fun hc => MEv.noConfusion hc, fun hc => MEv.noConfusion hc⟩
        · cases mg with
          | true =>
            rcases List.mem_singleton.mp (by simpa using hb) with rfl
            exact ⟨fun hc => MEv.noConfusion hc, fun hc => MEv.noConfusion hc⟩
          | false => simp at hb
      · rcases List.eq_of_mem_replicate h2 with rfl
        exact ⟨fun hc => MEv.noConfusion hc, fun hc => MEv.noConfusion hc⟩
  · intro issues extra mg hmem
    simp [merge_and_save_model] at hmem
